import Mathlib

/-!
Verification model of the embedded-protocol SSH client of this repository
(package `ssh`, type `GoCryptoClient` and its command handle
`goCryptoCommand`).

Strings are modelled as lists of characters (`Str`).  External collaborators
— the network, the OS user database, the spawned proxy process, the
`x/crypto/ssh` library and the process-wide default key source — are
modelled at their interfaces by an environment `Env`; observable effects
(dials, process spawns, handshakes, stream closes, protocol requests) are
recorded in a trace of `Event`s, so that statements such as "no network
I/O is attempted" or "every opened byte-stream is closed" become statements
about the trace.
-/

namespace SshClient

/-- Strings, modelled as lists of characters. -/
abbrev Str := List Char

/-- Signing credentials (private keys), abstract identifiers.  The model
never inspects key material; authentication outcomes come from `Env`. -/
abbrev Signer := Nat

/-- Index of the last occurrence of a character, as in Go `last(s, b)`
used by `net.SplitHostPort`. -/
def lastIdxOf (ch : Char) : Str → Option Nat
  | [] => none
  | c :: s =>
    match lastIdxOf ch s with
    | some i => some (i + 1)
    | none => if c = ch then some 0 else none

/-- Index of the first occurrence of a character, as in Go
`byteIndex(s, b)`. -/
def firstIdxOf (ch : Char) : Str → Option Nat
  | [] => none
  | c :: s => if c = ch then some 0 else (firstIdxOf ch s).map (· + 1)

def missingPortMsg : Str := "missing port in address".data
def tooManyColonsMsg : Str := "too many colons in address".data
def missingRightBracketMsg : Str := "missing right bracket in address".data
def unexpectedLeftBracketMsg : Str := "unexpected left bracket in address".data
def unexpectedRightBracketMsg : Str := "unexpected right bracket in address".data

/-- Model of Go `net.SplitHostPort`: the port starts after the last colon;
a host containing colons must be bracketed `[host]:port`; stray brackets
and extra colons are errors. -/
def splitHostPort (hostport : Str) : Except Str (Str × Str) :=
  match lastIdxOf ':' hostport with
  | none => .error missingPortMsg
  | some i =>
    match hostport with
    | [] => .error missingPortMsg
    | c0 :: _ =>
      if c0 = '[' then
        match firstIdxOf ']' hostport with
        | none => .error missingRightBracketMsg
        | some endB =>
          if endB + 1 = hostport.length then .error missingPortMsg
          else if endB + 1 = i then
            if (hostport.drop 1).contains '[' then .error unexpectedLeftBracketMsg
            else if (hostport.drop (endB + 1)).contains ']' then .error unexpectedRightBracketMsg
            else .ok ((hostport.drop 1).take (endB - 1), hostport.drop (i + 1))
          else if (hostport.drop (endB + 1)).head? = some ':' then .error tooManyColonsMsg
          else .error missingPortMsg
      else
        if (hostport.take i).contains ':' then .error tooManyColonsMsg
        else if hostport.contains '[' then .error unexpectedLeftBracketMsg
        else if hostport.contains ']' then .error unexpectedRightBracketMsg
        else .ok (hostport.take i, hostport.drop (i + 1))

/-- Model of Go `net.JoinHostPort`: brackets the host when it contains a
colon (it is then assumed to be an IPv6 literal). -/
def joinHostPort (host port : Str) : Str :=
  if host.contains ':' then '[' :: (host ++ ']' :: ':' :: port)
  else host ++ ':' :: port

/-- Model of Go `strconv.Itoa` on naturals. -/
def itoa (n : Nat) : Str := Nat.toDigits 10 n

/-- Fuel-indexed worker for `replaceAll`; the fuel bounds the number of
characters consumed and is always instantiated with the length of the
string, so the exhaustion branch is never reached. -/
def replaceAllAux (old new : Str) : Nat → Str → Str
  | _, [] => []
  | 0, s => s
  | fuel + 1, c :: s =>
    if old ≠ [] ∧ old.isPrefixOf (c :: s) then
      new ++ replaceAllAux old new fuel ((c :: s).drop old.length)
    else
      c :: replaceAllAux old new fuel s

/-- Model of Go `strings.Replace(s, old, new, -1)` for nonempty `old`:
replaces all non-overlapping occurrences of `old`, scanning left to
right and resuming after each inserted replacement. -/
def replaceAll (old new s : Str) : Str := replaceAllAux old new s.length s

/-- Whether `old` occurs as a contiguous substring of `s`. -/
def occurs (old : Str) (s : Str) : Bool :=
  old.isPrefixOf s ||
    match s with
    | [] => false
    | _ :: t => occurs old t

/-- Model of the first split of Go `strings.SplitN(s, sep, 2)` on a
one-character separator: the part before the first separator and the part
after it, or `none` if the separator does not occur. -/
def splitFirst (sep : Char) : Str → Option (Str × Str)
  | [] => none
  | c :: s =>
    if c = sep then some ([], s)
    else
      match splitFirst sep s with
      | some (a, b) => some (c :: a, b)
      | none => none

/-- Model of `splitUserHost` (source): `strings.SplitN(s, "@", 2)`; two
pieces yield `(user, host)`, otherwise the user is empty and the whole
string is the host. -/
def splitUserHost (s : Str) : Str × Str :=
  match splitFirst '@' s with
  | some (u, h) => (u, h)
  | none => ([], s)

/-- Characters that need no shell quoting when joining an argv. -/
def quoteSafe (ch : Char) : Bool :=
  ch.isAlphanum || ch = '-' || ch = '_' || ch = '.' || ch = '/' ||
    ch = '=' || ch = ':' || ch = '@' || ch = '%' || ch = '+' || ch = ','

/-- Shell-quotes one argument: kept verbatim when nonempty and made only
of safe characters, otherwise wrapped in double quotes with inner double
quotes escaped. -/
def quoteArg (a : Str) : Str :=
  if a ≠ [] ∧ a.all quoteSafe then a
  else '"' :: (replaceAll ['"'] ['\\', '"'] a ++ ['"'])

/-- Modelled from the spec: the argv-joining helper
(`github.com/juju/utils.CommandString`) is an external collaborator whose
implementation is not under `src/`; per the spec the caller's argv is
pre-joined into a single shell command string before transmission, with
each argument quoted as necessary (the spec's example: `["echo","hi"]`
joins to `"echo hi"`). -/
def commandString : List Str → Str
  | [] => []
  | [a] => quoteArg a
  | a :: b :: rest => quoteArg a ++ ' ' :: commandString (b :: rest)

/-- The `%h` proxy-command token (remote host). -/
def hTok : Str := ['%', 'h']

/-- The `%p` proxy-command token (remote port). -/
def pTok : Str := ['%', 'p']

/-- The `%r` proxy-command token (remote user). -/
def rTok : Str := ['%', 'r']

/-- Token substitution applied to one proxy-command argument at dial time
(source `sshDialWithProxy`, loop body): `%h` then — only when the port
string is nonempty — `%p`, then `%r`, each via `strings.Replace`. -/
def substProxyArg (host port user arg : Str) : Str :=
  let a1 := replaceAll hTok host arg
  let a2 := if port ≠ [] then replaceAll pTok port a1 else a1
  replaceAll rTok user a2

/-- Token substitution over the whole proxy-command argv (source
`sshDialWithProxy`, lines 96–107): the address is split into host and
port; when the split fails the host is the whole address and the port
stays empty, so `%p` is left alone. -/
def proxySubstitute (addr user : Str) (args : List Str) : List Str :=
  let hp :=
    match splitHostPort addr with
    | .ok hp => hp
    | .error _ => (addr, ([] : Str))
  args.map (substProxyArg hp.1 hp.2 user)

/-- Observable effects of the client, recorded in order.  `openStream`
marks a byte-stream coming into being (a TCP connection, or the in-memory
duplex pipe of the proxy path); `closeStream` marks it being closed. -/
inductive Event where
  | loadDefaultKeys : Event
  | dialTCP : Str → Event
  | openStream : Nat → Event
  | spawnProxy : List Str → Event
  | handshake : Str → Event
  | channelOpen : Event
  | closeStream : Nat → Event
  | sessionClose : Event
  | sessionWait : Event
  | shellRequest : Event
  | execRequest : Str → Event
  | signalRequest : Str → Event
  deriving DecidableEq

abbrev Trace := List Event

instance exceptDecEq {ε α : Type} [DecidableEq ε] [DecidableEq α] :
    DecidableEq (Except ε α) := fun x y =>
  match x, y with
  | .error a, .error b =>
    if h : a = b then .isTrue (congrArg Except.error h)
    else .isFalse fun hh => h (Except.error.inj hh)
  | .error _, .ok _ => .isFalse fun hh => Except.noConfusion hh
  | .ok _, .error _ => .isFalse fun hh => Except.noConfusion hh
  | .ok a, .ok b =>
    if h : a = b then .isTrue (congrArg Except.ok h)
    else .isFalse fun hh => h (Except.ok.inj hh)

/-- Interface model of the external world: outcomes of the fallible
external calls (none = success), the process-wide default key source
(`privateKeys`, from the `ssh` package key manager, not under `src/`),
and the OS account name (`os/user.Current`). -/
structure Env where
  defaultKeys : List Signer
  osUser : Except Str Str
  dialErr : Option Str
  spawnErr : Option Str
  handshakeErr : Option Str
  newSessionErr : Option Str
  sessCloseErr : Option Str
  clientCloseErr : Option Str
  waitErr : Option Str
  signalErr : Option Str
  shellErr : Option Str
  execErr : Option Str
  stdinPipeErr : Option Str
  stdoutPipeErr : Option Str
  stderrPipeErr : Option Str
  deriving DecidableEq

/-- An authenticated protocol client (`ssh.Client`); it owns the
byte-stream it handshook over. -/
structure SshClientConn where
  streamId : Nat
  deriving DecidableEq

/-- An open protocol session (`ssh.Session`), with the stdio values that
were attached to it when it was established. -/
structure SshSession where
  stdin : Option Nat
  stdout : Option Nat
  stderr : Option Nat
  deriving DecidableEq

/-- The command handle (source struct `goCryptoCommand`).  Stdio
redirections are abstract tokens; `proxyCommand` holds the contents of
the argv backing array, which in Go is shared with the caller's
`Options` value (the slice is captured without copying), so in-place
writes by `sshDialWithProxy` are visible here. -/
structure GoCryptoCommand where
  signers : List Signer
  user : Str
  addr : Str
  command : Str
  proxyCommand : List Str
  stdin : Option Nat
  stdout : Option Nat
  stderr : Option Nat
  client : Option SshClientConn
  sess : Option SshSession
  deriving DecidableEq

/-- Modelled from the spec: the Connection Options value (type `Options`
of the `ssh` package, not under `src/`) — a port override (Go zero value
0 means unset, default 22) and a proxy-command argv template. -/
structure Options where
  port : Nat
  proxyCommand : List Str
  deriving DecidableEq

/-- The client factory (source struct `GoCryptoClient`): holds the
signers bound at construction. -/
structure GoCryptoClient where
  signers : List Signer
  deriving DecidableEq

def sshDefaultPort : Nat := 22

/-- Interface model of `golang.org/x/crypto/ssh.Dial` (the package var
`sshDial`): dials TCP, then runs `ssh.NewClientConn` over the connection;
`NewClientConn` closes the connection itself when the handshake or
authentication fails.  The direct connection is stream 0. -/
def sshDial (env : Env) (addr : Str) : Except Str SshClientConn × Trace :=
  match env.dialErr with
  | some e => (.error e, [.dialTCP addr])
  | none =>
    match env.handshakeErr with
    | some e => (.error e, [.dialTCP addr, .openStream 0, .handshake addr, .closeStream 0])
    | none => (.ok ⟨0⟩, [.dialTCP addr, .openStream 0, .handshake addr])

/-- Model of the source `sshDialWithProxy`: with no proxy command it
falls through to `sshDial`; otherwise it substitutes the `%h`/`%p`/`%r`
tokens in every argument (writing the results back into the shared argv
array, returned as the second component), creates an in-memory duplex
pipe (stream 1), spawns the proxy process on one end and hands the other
end to `ssh.NewClientConn` (which closes that end on handshake failure).
A spawn failure is returned as the dial error. -/
def sshDialWithProxy (env : Env) (addr : Str) (proxyCommand : List Str)
    (configUser : Str) : Except Str SshClientConn × List Str × Trace :=
  if proxyCommand = [] then
    let r := sshDial env addr
    (r.1, proxyCommand, r.2)
  else
    let args := proxySubstitute addr configUser proxyCommand
    match env.spawnErr with
    | some e => (.error e, args, [.openStream 1, .spawnProxy args])
    | none =>
      match env.handshakeErr with
      | some e =>
        (.error e, args, [.openStream 1, .spawnProxy args, .handshake addr, .closeStream 1])
      | none => (.ok ⟨1⟩, args, [.openStream 1, .spawnProxy args, .handshake addr])

def noCredentialsMsg : Str := "no private keys available".data

def notStartedMsg : Str := "command has not been started".data

def currentUserErrPrefix : Str := "getting current user: ".data

/-- Model of the source `goCryptoCommand.ensureSession`: reuses a cached
session; fails with the no-credentials error before any I/O when the
signer list is empty; resolves an empty user from the OS account; builds
the client config and dials (directly or through the proxy); on
channel-open failure closes the client connection; on success caches the
client and the session and attaches the stdio values. -/
def ensureSession (env : Env) (c : GoCryptoCommand) :
    Except Str SshSession × GoCryptoCommand × Trace :=
  match c.sess with
  | some s => (.ok s, c, [])
  | none =>
    if c.signers = [] then (.error noCredentialsMsg, c, [])
    else
      let resolved : Except Str Str :=
        if c.user = [] then
          match env.osUser with
          | .error e => .error (currentUserErrPrefix ++ e)
          | .ok u => .ok u
        else .ok c.user
      match resolved with
      | .error e => (.error e, c, [])
      | .ok u =>
        let c1 := { c with user := u }
        match sshDialWithProxy env c1.addr c1.proxyCommand u with
        | (.error e, pc, tr) => (.error e, { c1 with proxyCommand := pc }, tr)
        | (.ok client, pc, tr) =>
          let c2 := { c1 with proxyCommand := pc }
          match env.newSessionErr with
          | some e =>
            (.error e, c2, tr ++ [.channelOpen, .closeStream client.streamId])
          | none =>
            let s : SshSession := ⟨c2.stdin, c2.stdout, c2.stderr⟩
            (.ok s, { c2 with client := some client, sess := some s }, tr ++ [.channelOpen])

/-- Model of the source `goCryptoCommand.Start`: establishes the session,
then requests an interactive shell when the command string is empty and
otherwise sends the protocol exec request with the command string. -/
def start (env : Env) (c : GoCryptoCommand) : Option Str × GoCryptoCommand × Trace :=
  match ensureSession env c with
  | (.error e, c1, tr) => (some e, c1, tr)
  | (.ok _, c1, tr) =>
    if c1.command = [] then (env.shellErr, c1, tr ++ [.shellRequest])
    else (env.execErr, c1, tr ++ [.execRequest c1.command])

/-- Model of the source `goCryptoCommand.Close`: a no-op without a live
session; otherwise closes the session then the client connection (the
session close error wins when both fail) and drops both from the
handle. -/
def close (env : Env) (c : GoCryptoCommand) : Option Str × GoCryptoCommand × Trace :=
  match c.sess with
  | none => (none, c, [])
  | some _ =>
    let closeClientTrace : Trace :=
      match c.client with
      | some cl => [.closeStream cl.streamId]
      | none => []
    let err : Option Str :=
      match env.sessCloseErr with
      | none => env.clientCloseErr
      | some e => some e
    (err, { c with sess := none, client := none }, .sessionClose :: closeClientTrace)

/-- Model of the source `goCryptoCommand.Wait`: errors without a live
session; otherwise waits for the remote command, then unconditionally
closes (discarding the close error) and returns the wait outcome. -/
def wait (env : Env) (c : GoCryptoCommand) : Option Str × GoCryptoCommand × Trace :=
  match c.sess with
  | none => (some notStartedMsg, c, [])
  | some _ =>
    let r := close env c
    (env.waitErr, r.2.1, .sessionWait :: r.2.2)

/-- Model of the source `goCryptoCommand.Kill`: errors without a live
session; otherwise sends SIGKILL over the open session. -/
def kill (env : Env) (c : GoCryptoCommand) : Option Str × GoCryptoCommand × Trace :=
  match c.sess with
  | none => (some notStartedMsg, c, [])
  | some _ => (env.signalErr, c, [.signalRequest "KILL".data])

/-- Model of the source `goCryptoCommand.SetStdio`. -/
def setStdio (stdin stdout stderr : Option Nat) (c : GoCryptoCommand) : GoCryptoCommand :=
  { c with stdin := stdin, stdout := stdout, stderr := stderr }

/-- Result of a successful pipe request: the possible error of the
session-level pipe call, and the static stream that was attached at
establishment (both are exposed to the caller). -/
structure PipeResult where
  pipeErr : Option Str
  static : Option Nat
  deriving DecidableEq

/-- Model of the source `goCryptoCommand.StdinPipe`: establishes the
session if needed, then asks the session for a stdin pipe and also
returns the session's static stdin. -/
def stdinPipe (env : Env) (c : GoCryptoCommand) :
    Except Str PipeResult × GoCryptoCommand × Trace :=
  match ensureSession env c with
  | (.error e, c1, tr) => (.error e, c1, tr)
  | (.ok s, c1, tr) => (.ok ⟨env.stdinPipeErr, s.stdin⟩, c1, tr)

/-- Model of the source `goCryptoCommand.StdoutPipe`. -/
def stdoutPipe (env : Env) (c : GoCryptoCommand) :
    Except Str PipeResult × GoCryptoCommand × Trace :=
  match ensureSession env c with
  | (.error e, c1, tr) => (.error e, c1, tr)
  | (.ok s, c1, tr) => (.ok ⟨env.stdoutPipeErr, s.stdout⟩, c1, tr)

/-- Model of the source `goCryptoCommand.StderrPipe`. -/
def stderrPipe (env : Env) (c : GoCryptoCommand) :
    Except Str PipeResult × GoCryptoCommand × Trace :=
  match ensureSession env c with
  | (.error e, c1, tr) => (.error e, c1, tr)
  | (.ok s, c1, tr) => (.ok ⟨env.stderrPipeErr, s.stderr⟩, c1, tr)

/-- Model of the source `GoCryptoClient.Command`: joins the argv into the
shell command string, falls back to the process-wide default key source
when the client has no signers (consulting it during `Command`, recorded
as a `loadDefaultKeys` event), splits `[user@]host`, resolves the port
from the options with default 22, captures the proxy-command argv, and
builds an inert handle.  Pure apart from the key-source consult: no
network events. -/
def command (cl : GoCryptoClient) (env : Env) (host : Str) (args : List Str)
    (options : Option Options) : GoCryptoCommand × Trace :=
  let shellCommand := commandString args
  let signers := if cl.signers = [] then env.defaultKeys else cl.signers
  let tr : Trace := if cl.signers = [] then [.loadDefaultKeys] else []
  let uh := splitUserHost host
  let port :=
    match options with
    | some o => if o.port ≠ 0 then o.port else sshDefaultPort
    | none => sshDefaultPort
  let proxyCommand :=
    match options with
    | some o => o.proxyCommand
    | none => []
  (⟨signers, uh.1, joinHostPort uh.2 (itoa port), shellCommand, proxyCommand,
    none, none, none, none, none⟩, tr)

/-- Model of the source `GoCryptoClient.Copy`: always fails with the
capability-gap error. -/
def copy (_args : List Str) (_options : Option Options) : Option Str :=
  some ("scp command is not implemented (OpenSSH scp not available in PATH)".data)

/-- The argv of the first proxy-process spawn recorded in a trace. -/
def spawnedArgv (tr : Trace) : Option (List Str) :=
  tr.findSome? fun e =>
    match e with
    | .spawnProxy a => some a
    | _ => none

theorem replaceAllAux_not_occurs (old new : Str) :
    ∀ (fuel : Nat) (s : Str), occurs old s = false → replaceAllAux old new fuel s = s := by
  intro fuel
  induction fuel with
  | zero => intro s _; cases s <;> rfl
  | succ n ih =>
    intro s h
    cases s with
    | nil => rfl
    | cons c t =>
      rw [occurs] at h
      have h1 : old.isPrefixOf (c :: t) = false := by
        cases hp : old.isPrefixOf (c :: t) <;> simp [hp] at h ⊢
      have h2 : occurs old t = false := by
        cases ho : occurs old t
        · rfl
        · rw [ho] at h; simp at h
      rw [replaceAllAux]
      rw [if_neg]
      · rw [ih t h2]
      · intro hcon
        rw [h1] at hcon
        exact Bool.false_ne_true hcon.2

/-- If the pattern does not occur in the string, replacement leaves the
string unchanged. -/
theorem replaceAll_not_occurs (old new s : Str) (h : occurs old s = false) :
    replaceAll old new s = s :=
  replaceAllAux_not_occurs old new s.length s h

theorem splitFirst_of_not_mem (sep : Char) :
    ∀ (s : Str), sep ∉ s → splitFirst sep s = none := by
  intro s
  induction s with
  | nil => intro _; rfl
  | cons c t ih =>
    intro h
    have hc : ¬ c = sep := fun hh => h (hh ▸ List.mem_cons_self c t)
    have ht : sep ∉ t := fun hh => h (List.mem_cons_of_mem c hh)
    rw [splitFirst, if_neg hc, ih ht]

theorem splitFirst_append_cons (sep : Char) :
    ∀ (u h : Str), sep ∉ u → splitFirst sep (u ++ sep :: h) = some (u, h) := by
  intro u
  induction u with
  | nil => intro h _; simp [splitFirst]
  | cons c t ih =>
    intro h hmem
    have hc : ¬ c = sep := fun hh => hmem (hh ▸ List.mem_cons_self c t)
    have ht : sep ∉ t := fun hh => hmem (List.mem_cons_of_mem c hh)
    rw [List.cons_append, splitFirst, if_neg hc, ih h ht]

theorem quoteArg_ne_nil (a : Str) : quoteArg a ≠ [] := by
  rw [quoteArg]
  split
  · rename_i hcond
    exact hcond.1
  · simp

theorem commandString_ne_nil (args : List Str) (h : args ≠ []) :
    commandString args ≠ [] := by
  match args with
  | [] => exact absurd rfl h
  | [a] => exact quoteArg_ne_nil a
  | a :: b :: rest =>
    rw [commandString]
    simp

/-- C9: splitting a host string of the form `user@hostname` (user without
an at-sign) recovers exactly the user and the hostname; a host string
without an at-sign yields an empty user and the whole string as the
hostname. -/
theorem C9_splitUserHost :
    (∀ u h : Str, u ≠ [] → h ≠ [] → '@' ∉ u →
      splitUserHost (u ++ '@' :: h) = (u, h)) ∧
    (∀ s : Str, '@' ∉ s → splitUserHost s = ([], s)) := by
  constructor
  · intro u h _ _ hat
    rw [splitUserHost, splitFirst_append_cons '@' u h hat]
  · intro s hat
    rw [splitUserHost, splitFirst_of_not_mem '@' s hat]

theorem C9_splitUserHost_witness :
    splitUserHost ("alice@db".data) = ("alice".data, "db".data) ∧
    splitUserHost ("db".data) = ([], "db".data) := by
  constructor
  · have heq : "alice".data ++ '@' :: "db".data = "alice@db".data := by decide
    rw [← heq]
    exact C9_splitUserHost.1 ("alice".data) ("db".data) (by decide) (by decide) (by decide)
  · exact C9_splitUserHost.2 ("db".data) (by decide)

/-- C10: when the target address cannot be split into host and port, the
dial-time token substitution replaces `%h` with the whole address string
and `%r` with the authenticating user, in every argument, and applies no
`%p` replacement at all. -/
theorem C10_unsplittable_addr (args : List Str) (addr u e : Str)
    (h : splitHostPort addr = .error e) :
    proxySubstitute addr u args =
      args.map (fun a => replaceAll rTok u (replaceAll hTok addr a)) := by
  unfold proxySubstitute substProxyArg
  rw [h]
  simp

theorem C10_unsplittable_addr_witness :
    splitHostPort ("db".data) = .error missingPortMsg ∧
    proxySubstitute ("db".data) ("root".data) ["nc".data, hTok, pTok] =
      ["nc".data, hTok, pTok].map
        (fun a => replaceAll rTok ("root".data) (replaceAll hTok ("db".data) a)) :=
  ⟨by decide,
   C10_unsplittable_addr ["nc".data, hTok, pTok] ("db".data) ("root".data)
     missingPortMsg (by decide)⟩

theorem ensureSession_noKeys (env : Env) (c : GoCryptoCommand)
    (h1 : c.sess = none) (h2 : c.signers = []) :
    ensureSession env c = (.error noCredentialsMsg, c, []) := by
  unfold ensureSession
  rw [h1, h2]
  simp

/-- A handle built by `command` starts with no session. -/
theorem command_sess_none (cl : GoCryptoClient) (env : Env) (host : Str)
    (args : List Str) (opts : Option Options) :
    (command cl env host args opts).1.sess = none := rfl

/-- C2: a handle whose credential set is empty — no signers bound at the
client and none available from the fallback source — fails Start and each
of the three pipe requests with the no-credentials error, leaves the
handle unchanged, and attempts no I/O at all (empty trace, hence no dial
and no network activity before the error is returned). -/
theorem C2_noCredentials (cl : GoCryptoClient) (env : Env) (host : Str)
    (args : List Str) (opts : Option Options)
    (hcl : cl.signers = []) (henv : env.defaultKeys = []) :
    start env (command cl env host args opts).1 =
      (some noCredentialsMsg, (command cl env host args opts).1, []) ∧
    stdinPipe env (command cl env host args opts).1 =
      (.error noCredentialsMsg, (command cl env host args opts).1, []) ∧
    stdoutPipe env (command cl env host args opts).1 =
      (.error noCredentialsMsg, (command cl env host args opts).1, []) ∧
    stderrPipe env (command cl env host args opts).1 =
      (.error noCredentialsMsg, (command cl env host args opts).1, []) := by
  have hsig : (command cl env host args opts).1.signers = [] := by
    simp [command, hcl, henv]
  have he := ensureSession_noKeys env (command cl env host args opts).1
    (command_sess_none cl env host args opts) hsig
  refine ⟨?_, ?_, ?_, ?_⟩
  · unfold start
    rw [he]
  · unfold stdinPipe
    rw [he]
  · unfold stdoutPipe
    rw [he]
  · unfold stderrPipe
    rw [he]

theorem C2_noCredentials_witness :
    start ⟨[], .ok "root".data, none, none, none, none, none, none, none, none,
        none, none, none, none, none⟩
      (command ⟨[]⟩ ⟨[], .ok "root".data, none, none, none, none, none, none,
        none, none, none, none, none, none, none⟩ ("db".data) [] none).1 =
      (some noCredentialsMsg,
        (command ⟨[]⟩ ⟨[], .ok "root".data, none, none, none, none, none, none,
          none, none, none, none, none, none, none⟩ ("db".data) [] none).1, []) :=
  (C2_noCredentials ⟨[]⟩ _ ("db".data) [] none rfl rfl).1

/-- C6: on a handle with a live session, Wait returns the remote outcome
(whatever it is — success or failure), unconditionally closes the session
and then the byte-stream owned by the client connection, and leaves the
handle with no live session. -/
theorem C6_wait_closes (env : Env) (c : GoCryptoCommand) (s : SshSession)
    (cl : SshClientConn) (hs : c.sess = some s) (hc : c.client = some cl) :
    wait env c =
      (env.waitErr, { c with sess := none, client := none },
        [.sessionWait, .sessionClose, .closeStream cl.streamId]) ∧
    (wait env c).2.1.sess = none := by
  unfold wait close
  rw [hs, hc]
  simp

theorem C6_wait_closes_witness :
    wait ⟨[], .ok "root".data, none, none, none, none, none, none, none, none,
        none, none, none, none, none⟩
      ⟨[1], "u".data, "h:22".data, [], [], none, none, none, some ⟨0⟩,
        some ⟨none, none, none⟩⟩ =
      (none,
        { (⟨[1], "u".data, "h:22".data, [], [], none, none, none, some ⟨0⟩,
            some ⟨none, none, none⟩⟩ : GoCryptoCommand) with
          sess := none, client := none },
        [.sessionWait, .sessionClose, .closeStream 0]) ∧
    (wait ⟨[], .ok "root".data, none, none, none, none, none, none, none, none,
        none, none, none, none, none⟩
      ⟨[1], "u".data, "h:22".data, [], [], none, none, none, some ⟨0⟩,
        some ⟨none, none, none⟩⟩).2.1.sess = none :=
  C6_wait_closes _ _ ⟨none, none, none⟩ ⟨0⟩ rfl rfl

/-- C7: on a handle with no live session, Close succeeds with no error and
is idempotent, while Wait and Kill return the not-started error and leave
the handle unchanged; and a handle that has just been closed by Wait or by
Close is exactly such a handle (no live session), so a further Close is
safe. -/
theorem C7_closed_handle (env : Env) (c : GoCryptoCommand) (hs : c.sess = none) :
    close env c = (none, c, []) ∧
    close env (close env c).2.1 = (none, c, []) ∧
    wait env c = (some notStartedMsg, c, []) ∧
    kill env c = (some notStartedMsg, c, []) ∧
    (∀ (d : GoCryptoCommand) (s : SshSession), d.sess = some s →
      (wait env d).2.1.sess = none ∧ (close env d).2.1.sess = none) := by
  have hclose : close env c = (none, c, []) := by
    unfold close
    rw [hs]
  refine ⟨hclose, ?_, ?_, ?_, ?_⟩
  · rw [hclose]
    exact hclose
  · unfold wait
    rw [hs]
  · unfold kill
    rw [hs]
  · intro d s hd
    constructor
    · unfold wait close
      rw [hd]
    · unfold close
      rw [hd]

theorem C7_closed_handle_witness :
    close ⟨[], .ok "root".data, none, none, none, none, none, none, none, none,
        none, none, none, none, none⟩
      ⟨[1], "u".data, "h:22".data, [], [], none, none, none, none, none⟩ =
      (none, ⟨[1], "u".data, "h:22".data, [], [], none, none, none, none, none⟩, []) ∧
    wait ⟨[], .ok "root".data, none, none, none, none, none, none, none, none,
        none, none, none, none, none⟩
      ⟨[1], "u".data, "h:22".data, [], [], none, none, none, none, none⟩ =
      (some notStartedMsg,
        ⟨[1], "u".data, "h:22".data, [], [], none, none, none, none, none⟩, []) :=
  ⟨(C7_closed_handle _ _ rfl).1, (C7_closed_handle _ _ rfl).2.2.1⟩

/-- C3: when session establishment fails after a byte-stream has been
opened — the handshake or authentication fails on the dialed or proxied
stream, or the channel open fails on the authenticated connection — the
result is exactly the underlying error, every byte-stream that the trace
records as opened is also recorded as closed, and there is no retry: at
most one handshake, one TCP dial and one proxy spawn occur. -/
theorem C3_teardown (env : Env) (c : GoCryptoCommand) (e u : Str)
    (hsess : c.sess = none) (hsig : c.signers ≠ [])
    (huser : env.osUser = .ok u)
    (hdial : env.dialErr = none) (hspawn : env.spawnErr = none)
    (hfail : env.handshakeErr = some e ∨
      (env.handshakeErr = none ∧ env.newSessionErr = some e)) :
    (ensureSession env c).1 = .error e ∧
    (∀ id, Event.openStream id ∈ (ensureSession env c).2.2 →
      Event.closeStream id ∈ (ensureSession env c).2.2) ∧
    ((ensureSession env c).2.2.countP fun ev =>
      match ev with | .handshake _ => true | _ => false) ≤ 1 ∧
    ((ensureSession env c).2.2.countP fun ev =>
      match ev with | .dialTCP _ => true | _ => false) ≤ 1 ∧
    ((ensureSession env c).2.2.countP fun ev =>
      match ev with | .spawnProxy _ => true | _ => false) ≤ 1 := by
  rcases hfail with hhs | ⟨hhs, hns⟩
  · by_cases hpc : c.proxyCommand = [] <;> by_cases hu : c.user = [] <;>
      simp [ensureSession, sshDialWithProxy, sshDial, hsess, hsig, huser,
        hdial, hspawn, hhs, hpc, hu, List.countP_cons, List.countP_nil]
  · by_cases hpc : c.proxyCommand = [] <;> by_cases hu : c.user = [] <;>
      simp [ensureSession, sshDialWithProxy, sshDial, hsess, hsig, huser,
        hdial, hspawn, hhs, hns, hpc, hu, List.countP_cons, List.countP_nil]

theorem C3_teardown_witness :
    (ensureSession
      ⟨[], .ok "root".data, none, none, some "boom".data, none, none, none,
        none, none, none, none, none, none, none⟩
      ⟨[1], "u".data, "h:22".data, [], [], none, none, none, none, none⟩).1 =
      .error ("boom".data) ∧
    (∀ id, Event.openStream id ∈
        (ensureSession
          ⟨[], .ok "root".data, none, none, some "boom".data, none, none, none,
            none, none, none, none, none, none, none⟩
          ⟨[1], "u".data, "h:22".data, [], [], none, none, none, none, none⟩).2.2 →
      Event.closeStream id ∈
        (ensureSession
          ⟨[], .ok "root".data, none, none, some "boom".data, none, none, none,
            none, none, none, none, none, none, none⟩
          ⟨[1], "u".data, "h:22".data, [], [], none, none, none, none, none⟩).2.2) := by
  have h := C3_teardown
    ⟨[], .ok "root".data, none, none, some "boom".data, none, none, none,
      none, none, none, none, none, none, none⟩
    ⟨[1], "u".data, "h:22".data, [], [], none, none, none, none, none⟩
    ("boom".data) ("root".data) rfl (by decide) rfl rfl rfl (Or.inl rfl)
  exact ⟨h.1, h.2.1⟩

theorem ensureSession_success (env : Env) (c : GoCryptoCommand) (u : Str)
    (hsess : c.sess = none) (hsig : c.signers ≠ []) (huser : env.osUser = .ok u)
    (hdial : env.dialErr = none) (hspawn : env.spawnErr = none)
    (hhs : env.handshakeErr = none) (hns : env.newSessionErr = none) :
    ∃ s c1 tr, ensureSession env c = (.ok s, c1, tr) ∧ c1.command = c.command := by
  by_cases hpc : c.proxyCommand = [] <;> by_cases hu : c.user = [] <;>
    (simp [ensureSession, sshDialWithProxy, sshDial, hsess, hsig, huser,
      hdial, hspawn, hhs, hns, hpc, hu];
     exact ⟨_, _, ⟨rfl, rfl⟩, rfl⟩)

/-- A concrete environment in which every external call succeeds, the OS
account is root, and the fallback key source is empty. -/
def okEnv : Env :=
  ⟨[], .ok "root".data, none, none, none, none, none, none, none, none,
    none, none, none, none, none⟩

/-- C8: the handle carries the single shell command string pre-joined from
the caller's argv; Start on an empty command string ends by requesting an
interactive shell, and on a non-empty argv ends by sending the protocol
exec request carrying exactly that pre-joined string. -/
theorem C8_start (env : Env) (cl : GoCryptoClient) (host : Str) (args : List Str)
    (opts : Option Options) (u : Str)
    (hdial : env.dialErr = none) (hspawn : env.spawnErr = none)
    (hhs : env.handshakeErr = none) (hns : env.newSessionErr = none)
    (huser : env.osUser = .ok u)
    (hsig : (if cl.signers = [] then env.defaultKeys else cl.signers) ≠ []) :
    (command cl env host args opts).1.command = commandString args ∧
    (args = [] →
      (start env (command cl env host args opts).1).1 = env.shellErr ∧
      (start env (command cl env host args opts).1).2.2.getLast? = some .shellRequest) ∧
    (args ≠ [] →
      (start env (command cl env host args opts).1).1 = env.execErr ∧
      (start env (command cl env host args opts).1).2.2.getLast? =
        some (.execRequest (commandString args))) := by
  have hcmd : (command cl env host args opts).1.command = commandString args := rfl
  have hsig2 : (command cl env host args opts).1.signers ≠ [] := by
    simpa [command] using hsig
  obtain ⟨s, c1, tr, hred, hc1⟩ := ensureSession_success env
    (command cl env host args opts).1 u (command_sess_none cl env host args opts)
    hsig2 huser hdial hspawn hhs hns
  have hc1' : c1.command = commandString args := hc1.trans hcmd
  refine ⟨hcmd, ?_, ?_⟩
  · intro ha
    have hc0 : c1.command = [] := by rw [hc1', ha]; rfl
    unfold start
    rw [hred]
    simp only []
    rw [if_pos hc0]
    exact ⟨rfl, by rw [List.getLast?_append_cons]; rfl⟩
  · intro ha
    have hne : ¬ c1.command = [] := by
      rw [hc1']
      exact commandString_ne_nil args ha
    unfold start
    rw [hred]
    simp only []
    rw [if_neg hne]
    refine ⟨rfl, ?_⟩
    rw [List.getLast?_append_cons, hc1']
    rfl

theorem C8_start_witness :
    (command ⟨[1]⟩ okEnv ("h".data) ["echo".data, "hi".data] none).1.command =
      commandString ["echo".data, "hi".data] ∧
    (start okEnv
        (command ⟨[1]⟩ okEnv ("h".data) ["echo".data, "hi".data] none).1).1 =
      okEnv.execErr ∧
    (start okEnv
        (command ⟨[1]⟩ okEnv ("h".data) ["echo".data, "hi".data] none).1).2.2.getLast? =
      some (.execRequest (commandString ["echo".data, "hi".data])) := by
  have h := C8_start okEnv ⟨[1]⟩ ("h".data) ["echo".data, "hi".data] none
    ("root".data) rfl rfl rfl rfl rfl (by decide)
  exact ⟨h.1, (h.2.2 (by decide)).1, (h.2.2 (by decide)).2⟩

/-- C1 (counterexample): with proxy-command template `["nc","%h","%p"]`,
host argument `"db:5432"` and no port option, the proxy process is spawned
with argv `["nc","db:5432","22"]`, not `["nc","db","5432"]`: Command does
not parse a port out of the host string, so the whole string `"db:5432"`
becomes the host, the address is bracketed to `"[db:5432]:22"`, `%h` is
replaced by `"db:5432"` and `%p` by the default port `"22"`. -/
theorem C1_counterexample :
    spawnedArgv (ensureSession okEnv (command ⟨[1]⟩ okEnv ("db:5432".data) []
        (some ⟨0, ["nc".data, "%h".data, "%p".data]⟩)).1).2.2 =
      some ["nc".data, "db:5432".data, "22".data] ∧
    some ["nc".data, "db:5432".data, "22".data] ≠
      some ["nc".data, "db".data, "5432".data] := by
  constructor
  · decide
  · decide

theorem substProxyArg_eval (host port u arg a1 a2 : Str)
    (hport : port ≠ [])
    (h1 : replaceAll hTok host arg = a1)
    (h2 : replaceAll pTok port a1 = a2)
    (h3 : occurs rTok a2 = false) :
    substProxyArg host port u arg = a2 := by
  simp only [substProxyArg]
  rw [h1, if_pos hport, h2]
  exact replaceAll_not_occurs _ _ _ h3

theorem spawnedArgv_ensureSession (env : Env) (c : GoCryptoCommand) (u : Str)
    (hsess : c.sess = none) (hsig : c.signers ≠ [])
    (hu : c.user = []) (huser : env.osUser = .ok u) (hpc : c.proxyCommand ≠ []) :
    spawnedArgv (ensureSession env c).2.2 =
      some (proxySubstitute c.addr u c.proxyCommand) := by
  cases hsp : env.spawnErr <;> cases hhs : env.handshakeErr <;>
    cases hns : env.newSessionErr <;>
    simp [ensureSession, sshDialWithProxy, spawnedArgv, hsess, hsig, hu, huser,
      hpc, hsp, hhs, hns, List.findSome?]

/-- C1 (amended): with the template `["nc","%h","%p"]`, the spawn argv
`["nc","db","5432"]` is obtained from host `"db"` together with port
option 5432; the claim's host argument `"db:5432"` with no port option
instead yields the address `"[db:5432]:22"` and spawn argv
`["nc","db:5432","22"]` (`%h` and `%p` are still substituted in every
argument, but with the whole host string and the default port). -/
theorem C1_amended (env : Env) (u : Str) (sgs : List Signer)
    (hsg : sgs ≠ []) (huser : env.osUser = .ok u) :
    spawnedArgv (ensureSession env (command ⟨sgs⟩ env ("db".data) []
        (some ⟨5432, ["nc".data, "%h".data, "%p".data]⟩)).1).2.2 =
      some ["nc".data, "db".data, "5432".data] ∧
    (command ⟨sgs⟩ env ("db:5432".data) []
        (some ⟨0, ["nc".data, "%h".data, "%p".data]⟩)).1.addr = "[db:5432]:22".data ∧
    spawnedArgv (ensureSession env (command ⟨sgs⟩ env ("db:5432".data) []
        (some ⟨0, ["nc".data, "%h".data, "%p".data]⟩)).1).2.2 =
      some ["nc".data, "db:5432".data, "22".data] := by
  have hsub1 : proxySubstitute ("db:5432".data) u ["nc".data, "%h".data, "%p".data] =
      ["nc".data, "db".data, "5432".data] := by
    have hsplit : splitHostPort ("db:5432".data) = .ok ("db".data, "5432".data) := by decide
    unfold proxySubstitute
    rw [hsplit]
    simp only [List.map]
    rw [substProxyArg_eval ("db".data) ("5432".data) u ("nc".data) ("nc".data) ("nc".data)
          (by decide) (by decide) (by decide) (by decide),
        substProxyArg_eval ("db".data) ("5432".data) u ("%h".data) ("db".data) ("db".data)
          (by decide) (by decide) (by decide) (by decide),
        substProxyArg_eval ("db".data) ("5432".data) u ("%p".data) ("%p".data) ("5432".data)
          (by decide) (by decide) (by decide) (by decide)]
  have hsub2 : proxySubstitute ("[db:5432]:22".data) u ["nc".data, "%h".data, "%p".data] =
      ["nc".data, "db:5432".data, "22".data] := by
    have hsplit : splitHostPort ("[db:5432]:22".data) = .ok ("db:5432".data, "22".data) := by
      decide
    unfold proxySubstitute
    rw [hsplit]
    simp only [List.map]
    rw [substProxyArg_eval ("db:5432".data) ("22".data) u ("nc".data) ("nc".data) ("nc".data)
          (by decide) (by decide) (by decide) (by decide),
        substProxyArg_eval ("db:5432".data) ("22".data) u ("%h".data) ("db:5432".data)
          ("db:5432".data) (by decide) (by decide) (by decide) (by decide),
        substProxyArg_eval ("db:5432".data) ("22".data) u ("%p".data) ("%p".data) ("22".data)
          (by decide) (by decide) (by decide) (by decide)]
  refine ⟨?_, rfl, ?_⟩
  · have hpcE : (command ⟨sgs⟩ env ("db".data) []
        (some ⟨5432, ["nc".data, "%h".data, "%p".data]⟩)).1.proxyCommand =
        ["nc".data, "%h".data, "%p".data] := rfl
    have hs1 : (command ⟨sgs⟩ env ("db".data) []
        (some ⟨5432, ["nc".data, "%h".data, "%p".data]⟩)).1.signers ≠ [] := by
      simp [command, hsg]
    have h1 := spawnedArgv_ensureSession env
      (command ⟨sgs⟩ env ("db".data) [] (some ⟨5432, ["nc".data, "%h".data, "%p".data]⟩)).1
      u rfl hs1 rfl huser (by rw [hpcE]; decide)
    have haddr : (command ⟨sgs⟩ env ("db".data) []
        (some ⟨5432, ["nc".data, "%h".data, "%p".data]⟩)).1.addr = "db:5432".data := rfl
    rw [h1, haddr, hpcE, hsub1]
  · have hpcE : (command ⟨sgs⟩ env ("db:5432".data) []
        (some ⟨0, ["nc".data, "%h".data, "%p".data]⟩)).1.proxyCommand =
        ["nc".data, "%h".data, "%p".data] := rfl
    have hs1 : (command ⟨sgs⟩ env ("db:5432".data) []
        (some ⟨0, ["nc".data, "%h".data, "%p".data]⟩)).1.signers ≠ [] := by
      simp [command, hsg]
    have h1 := spawnedArgv_ensureSession env
      (command ⟨sgs⟩ env ("db:5432".data) [] (some ⟨0, ["nc".data, "%h".data, "%p".data]⟩)).1
      u rfl hs1 rfl huser (by rw [hpcE]; decide)
    have haddr : (command ⟨sgs⟩ env ("db:5432".data) []
        (some ⟨0, ["nc".data, "%h".data, "%p".data]⟩)).1.addr = "[db:5432]:22".data := rfl
    rw [h1, haddr, hpcE, hsub2]

theorem C1_amended_witness :
    spawnedArgv (ensureSession okEnv (command ⟨[1]⟩ okEnv ("db".data) []
        (some ⟨5432, ["nc".data, "%h".data, "%p".data]⟩)).1).2.2 =
      some ["nc".data, "db".data, "5432".data] ∧
    (command ⟨[1]⟩ okEnv ("db:5432".data) []
        (some ⟨0, ["nc".data, "%h".data, "%p".data]⟩)).1.addr = "[db:5432]:22".data ∧
    spawnedArgv (ensureSession okEnv (command ⟨[1]⟩ okEnv ("db:5432".data) []
        (some ⟨0, ["nc".data, "%h".data, "%p".data]⟩)).1).2.2 =
      some ["nc".data, "db:5432".data, "22".data] :=
  C1_amended okEnv ("root".data) [1] (by decide) rfl

/-- C4 (counterexample): the handle built by Command captures the template
`["nc","%h","%p"]` verbatim, but after session establishment the shared
argv array — in Go the same backing array as the caller's
`Options.proxyCommand`, since the slice is captured without copying and
`sshDialWithProxy` assigns the substituted arguments back into it — holds
`["nc","db:5432","22"]`, which differs from the template: the options are
mutated by a later lifecycle operation. -/
theorem C4_counterexample :
    (command ⟨[1]⟩ okEnv ("db:5432".data) []
        (some ⟨0, ["nc".data, "%h".data, "%p".data]⟩)).1.proxyCommand =
      ["nc".data, "%h".data, "%p".data] ∧
    (ensureSession okEnv (command ⟨[1]⟩ okEnv ("db:5432".data) []
        (some ⟨0, ["nc".data, "%h".data, "%p".data]⟩)).1).2.1.proxyCommand =
      ["nc".data, "db:5432".data, "22".data] ∧
    (["nc".data, "db:5432".data, "22".data] : List Str) ≠
      ["nc".data, "%h".data, "%p".data] :=
  ⟨by decide, by decide, by decide⟩

/-- C4 (amended): Command itself captures the proxy-command template
verbatim and does not modify the options, but session establishment's
token substitution writes the substituted argv back into the shared
backing array: afterwards the handle's (and hence the caller's) argv
elements are the substituted values, not the template. -/
theorem C4_amended (cl : GoCryptoClient) (env : Env) (host : Str)
    (args : List Str) (o : Options) (u : Str) (huser : env.osUser = .ok u) :
    (command cl env host args (some o)).1.proxyCommand = o.proxyCommand ∧
    (∀ c : GoCryptoCommand, c.sess = none → c.signers ≠ [] → c.proxyCommand ≠ [] →
      (ensureSession env c).2.1.proxyCommand =
        proxySubstitute c.addr (if c.user = [] then u else c.user) c.proxyCommand) := by
  constructor
  · rfl
  · intro c hsess hsig hpc
    by_cases hu : c.user = [] <;>
      cases hsp : env.spawnErr <;> cases hhs : env.handshakeErr <;>
      cases hns : env.newSessionErr <;>
      simp [ensureSession, sshDialWithProxy, hsess, hsig, hpc, hu, huser,
        hsp, hhs, hns]

theorem C4_amended_witness :
    (command ⟨[1]⟩ okEnv ("db:5432".data) []
        (some ⟨0, ["nc".data, "%h".data, "%p".data]⟩)).1.proxyCommand =
      ["nc".data, "%h".data, "%p".data] ∧
    (ensureSession okEnv (command ⟨[1]⟩ okEnv ("db:5432".data) []
        (some ⟨0, ["nc".data, "%h".data, "%p".data]⟩)).1).2.1.proxyCommand =
      proxySubstitute
        (command ⟨[1]⟩ okEnv ("db:5432".data) []
          (some ⟨0, ["nc".data, "%h".data, "%p".data]⟩)).1.addr
        (if (command ⟨[1]⟩ okEnv ("db:5432".data) []
            (some ⟨0, ["nc".data, "%h".data, "%p".data]⟩)).1.user = []
         then "root".data
         else (command ⟨[1]⟩ okEnv ("db:5432".data) []
            (some ⟨0, ["nc".data, "%h".data, "%p".data]⟩)).1.user)
        (command ⟨[1]⟩ okEnv ("db:5432".data) []
          (some ⟨0, ["nc".data, "%h".data, "%p".data]⟩)).1.proxyCommand := by
  have h := C4_amended ⟨[1]⟩ okEnv ("db:5432".data) []
    ⟨0, ["nc".data, "%h".data, "%p".data]⟩ ("root".data) rfl
  exact ⟨h.1, h.2 _ rfl (by decide) (by decide)⟩

/-- A concrete environment whose fallback key source holds one key. -/
def keyEnv : Env :=
  ⟨[7], .ok "root".data, none, none, none, none, none, none, none, none,
    none, none, none, none, none⟩

/-- C5 (counterexample): when the client binds no signers, Command itself
consults the process-wide default credential source — the trace of Command
is the load event, and the handle already carries the fallback keys when
Command returns — while session establishment never consults it.  The
load is therefore not deferred to session establishment as the claim
states. -/
theorem C5_counterexample :
    (command ⟨[]⟩ keyEnv ("db".data) [] none).2 = [Event.loadDefaultKeys] ∧
    (command ⟨[]⟩ keyEnv ("db".data) [] none).1.signers = [7] ∧
    ((ensureSession keyEnv (command ⟨[]⟩ keyEnv ("db".data) [] none).1).2.2.countP
      fun ev => match ev with | Event.loadDefaultKeys => true | _ => false) = 0 :=
  ⟨by decide, by decide, by decide⟩

/-- C5 (amended): Command is pure construction apart from consulting the
process-wide default credential source when — and only when — the client
binds no signers (that consult happens during Command, not at session
establishment); it performs no network I/O (no dial, stream, spawn or
handshake events), cannot fail (it is total), parses `host` as
`[user@]hostname`, resolves the port from the options with default 22,
joins host and port into the target address, pre-joins the argv, captures
the proxy-command template verbatim, and returns an inert handle. -/
theorem C5_amended (cl : GoCryptoClient) (env : Env) (host : Str)
    (args : List Str) (opts : Option Options) :
    (command cl env host args opts).2 =
      (if cl.signers = [] then [Event.loadDefaultKeys] else []) ∧
    ((command cl env host args opts).2.countP fun ev =>
      match ev with
      | .dialTCP _ => true
      | .openStream _ => true
      | .spawnProxy _ => true
      | .handshake _ => true
      | _ => false) = 0 ∧
    (command cl env host args opts).1.user = (splitUserHost host).1 ∧
    (opts = none →
      (command cl env host args opts).1.addr =
        joinHostPort (splitUserHost host).2 (itoa 22)) ∧
    (∀ o, opts = some o →
      (command cl env host args opts).1.addr =
        joinHostPort (splitUserHost host).2
          (itoa (if o.port = 0 then 22 else o.port))) ∧
    (command cl env host args opts).1.command = commandString args ∧
    (opts = none → (command cl env host args opts).1.proxyCommand = []) ∧
    (∀ o, opts = some o →
      (command cl env host args opts).1.proxyCommand = o.proxyCommand) ∧
    (command cl env host args opts).1.sess = none ∧
    (command cl env host args opts).1.client = none := by
  refine ⟨?_, ?_, rfl, ?_, ?_, rfl, ?_, ?_, rfl, rfl⟩
  · by_cases h : cl.signers = [] <;> simp [command, h]
  · by_cases h : cl.signers = [] <;> simp [command, h, List.countP_cons, List.countP_nil]
  · intro h
    subst h
    rfl
  · intro o h
    subst h
    by_cases hp : o.port = 0
    · simp [command, hp, sshDefaultPort]
    · simp [command, hp]
  · intro h
    subst h
    rfl
  · intro o h
    subst h
    rfl

theorem C5_amended_witness :
    (command ⟨[]⟩ keyEnv ("alice@db".data) ["echo".data] (some ⟨0, ["nc".data]⟩)).2 =
      (if ([] : List Signer) = [] then [Event.loadDefaultKeys] else []) ∧
    (command ⟨[]⟩ keyEnv ("alice@db".data) ["echo".data] (some ⟨0, ["nc".data]⟩)).1.addr =
      joinHostPort (splitUserHost ("alice@db".data)).2 (itoa (if (0 : Nat) = 0 then 22 else 0)) ∧
    (command ⟨[]⟩ keyEnv ("alice@db".data) ["echo".data] (some ⟨0, ["nc".data]⟩)).1.proxyCommand =
      ["nc".data] := by
  have h := C5_amended ⟨[]⟩ keyEnv ("alice@db".data) ["echo".data] (some ⟨0, ["nc".data]⟩)
  exact ⟨h.1, h.2.2.2.2.1 ⟨0, ["nc".data]⟩ rfl, h.2.2.2.2.2.2.2.1 ⟨0, ["nc".data]⟩ rfl⟩

end SshClient
